import Mathlib

/-!
Shallow embedding of `main.py` from `python_transform_billing_data`.

The program downloads a billing CSV, loads it into a dataframe with a fixed
column-type mapping (all columns `str` except `CostInBillingCurrency : float`),
overwrites the `Date` column with parsed datetimes, appends `Month`/`Year`
period columns, and writes four group-by-sum reports with
`df.groupby(K).agg({"CostInBillingCurrency": "sum"}).reset_index()` followed by
`agg_df.to_csv(path, index=False)`.

Modelling choices:
  * Rows keep the columns the reports touch (`SubscriptionName`,
    `MeterCategory`, `AccountName`, `Date`, derived `Month`/`Year`, and
    `CostInBillingCurrency`); the remaining ~45 string columns are never read
    by any report and do not affect any observable value.
  * `float64` cost values are idealised as `ℚ` (exact arithmetic); pandas
    renders an integer-valued float `15.0` as the string `"15.0"`, which
    `renderCost` reproduces exactly for integer values.
  * A CSV cell that is empty is a pandas `NaN`; a missing string value is
    `Option.none`.  `groupby` drops rows whose key is missing (`dropna=True`
    default) and sorts the group keys ascending (`sort=True` default);
    pandas compares Python strings lexicographically by code point, which
    `strLe` implements over `String.data`.
  * `pd.to_datetime` is modelled for ISO `YYYY-MM-DD` strings, the format the
    spec's data-model invariant guarantees (`Date` is parseable); an
    unparseable date makes the load step fail, as `errors="raise"` does.
-/

/-- A parsed calendar date, the result of `pd.to_datetime` on one cell. -/
structure PDate where
  year : Nat
  month : Nat
  day : Nat
deriving DecidableEq, Repr

/-- A dataframe cell value: the `Date` column holds `str` cells after load and
`datetime` cells after `pd.to_datetime`; `Month`/`Year` hold period cells. -/
inductive Value where
  | str (s : String)
  | dt (d : PDate)
  | per (m : Int)
  | perY (y : Int)
deriving DecidableEq, Repr

/-- One row of the Billing Record Table, restricted to the columns the report
functions read.  `Option.none` models a pandas `NaN` cell. -/
structure Row where
  SubscriptionName : Option String
  MeterCategory : Option String
  AccountName : Option String
  Date : Value
  Month : Option Value
  Year : Option Value
  CostInBillingCurrency : ℚ
deriving DecidableEq, Repr

/-- Split a character list at every occurrence of `c` (the pieces, in order,
with the separators removed); `acc` holds the current piece reversed. -/
def splitCharAux (c : Char) : List Char → List Char → List (List Char)
  | [], acc => [acc.reverse]
  | x :: xs, acc =>
    if x = c then acc.reverse :: splitCharAux c xs [] else splitCharAux c xs (x :: acc)

/-- `s.split("-")`-style splitting on a single character. -/
def splitOnChar (c : Char) (s : String) : List String :=
  (splitCharAux c s.data []).map fun l => String.mk l

/-- The numeric value of a decimal digit character, when it is one. -/
def digitVal (ch : Char) : Option Nat :=
  if '0' ≤ ch ∧ ch ≤ '9' then some (ch.toNat - '0'.toNat) else none

/-- Parse a non-empty all-digit character list as a decimal number. -/
def toNatAux : List Char → Nat → Option Nat
  | [], acc => some acc
  | ch :: t, acc =>
    match digitVal ch with
    | some v => toNatAux t (acc * 10 + v)
    | none => none

/-- Parse a decimal numeral string. -/
def strToNat (s : String) : Option Nat :=
  if s.data.isEmpty then none else toNatAux s.data 0

/-- `pd.to_datetime` on one ISO `YYYY-MM-DD` cell. -/
def parseDate (s : String) : Option PDate :=
  match splitOnChar '-' s with
  | [y, m, d] =>
    match strToNat y, strToNat m, strToNat d with
    | some yn, some mn, some dn =>
      if 1 ≤ mn ∧ mn ≤ 12 ∧ 1 ≤ dn ∧ dn ≤ 31 then some ⟨yn, mn, dn⟩ else none
    | _, _, _ => none
  | _ => none

/-- `dt.to_period("M")`: a month period, linearised as `year * 12 + month - 1`
so that chronological order is the order on `Int`. -/
def monthIdx (d : PDate) : Int := (d.year : Int) * 12 + (d.month : Int) - 1

/-- `df["Date"] = pd.to_datetime(df["Date"]); df["Month"] = ...; df["Year"] = ...`
applied to one row: the `Date` cell is overwritten in place with the parsed
datetime and the two period columns are appended. -/
def deriveRow (r : Row) : Option Row :=
  match r.Date with
  | Value.str s =>
    match parseDate s with
    | some d =>
      some { r with
             Date := Value.dt d
             Month := some (Value.per (monthIdx d))
             Year := some (Value.perY (d.year : Int)) }
    | none => none
  | _ => none

/-- Lines 152-154 of `main.py` applied to the loaded table. -/
def derive : List Row → Option (List Row)
  | [] => some []
  | r :: rs =>
    match deriveRow r, derive rs with
    | some r2, some rs2 => some (r2 :: rs2)
    | _, _ => none

/-- Lexicographic comparison of code-point lists, as Python compares `str`. -/
def charListLe : List Char → List Char → Bool
  | [], _ => true
  | _ :: _, [] => false
  | a :: as, b :: bs => if a < b then true else if b < a then false else charListLe as bs

/-- Python string `<=`, used by the pandas groupby key sort. -/
def strLe (a b : String) : Bool := charListLe a.data b.data

/-- `Int` `<=` as a boolean comparator, the order on month periods. -/
def intLe (a b : Int) : Bool := decide (a ≤ b)

/-- The distinct non-missing key values of a column, in groupby output order
(ascending; pandas `groupby` has `sort=True` and `dropna=True` by default). -/
def groupKeys {K : Type} [DecidableEq K] (le : K → K → Bool)
    (key : Row → Option K) (df : List Row) : List K :=
  List.insertionSort (fun a b => le a b = true) (df.filterMap key).dedup

/-- The summed `CostInBillingCurrency` of the rows in one group. -/
def groupSum {K : Type} [DecidableEq K] (key : Row → Option K)
    (df : List Row) (k : K) : ℚ :=
  ((df.filter fun r => decide (key r = some k)).map Row.CostInBillingCurrency).sum

/-- `df.groupby(key).agg({"CostInBillingCurrency": "sum"}).reset_index()`:
one (key, summed cost) pair per distinct non-missing key, keys ascending. -/
def groupbySum {K : Type} [DecidableEq K] (le : K → K → Bool)
    (key : Row → Option K) (df : List Row) : List (K × ℚ) :=
  (groupKeys le key df).map fun k => (k, groupSum key df k)

/-- The aggregate of the cost-by-subscription report. -/
def subGroups (df : List Row) : List (String × ℚ) :=
  groupbySum strLe (fun r => r.SubscriptionName) df

/-- The aggregate of the cost-by-meter-category report. -/
def meterGroups (df : List Row) : List (String × ℚ) :=
  groupbySum strLe (fun r => r.MeterCategory) df

/-- The aggregate of the cost-by-account report. -/
def accountGroups (df : List Row) : List (String × ℚ) :=
  groupbySum strLe (fun r => r.AccountName) df

/-- The `Month` column as a groupby key (a period cell, when present). -/
def monthKey (r : Row) : Option Int :=
  match r.Month with
  | some (Value.per m) => some m
  | _ => none

/-- The aggregate of the cost-by-month report. -/
def monthGroups (df : List Row) : List (Int × ℚ) :=
  groupbySum intLe monthKey df

/-- pandas `to_csv` rendering of one `float64` cell.  An integer-valued float
like `15.0` prints as `"15.0"`.  (A cost whose exact value is not an integer is
rendered here as `num/den`; no claim exercises that branch, and a binary float
is in general not the exact rational anyway.) -/
def renderCost (q : ℚ) : String :=
  if q.den = 1 then toString q.num ++ ".0"
  else toString q.num ++ "/" ++ toString q.den

/-- pandas `to_csv` rendering of a month period, e.g. `"2024-01"`. -/
def renderPeriodM (m : Int) : String :=
  let y := Int.ediv m 12
  let mo := (Int.emod m 12).toNat + 1
  toString y ++ "-" ++ (if mo < 10 then "0" ++ toString mo else toString mo)

/-- Double every quote character, for CSV quoting. -/
def escapeQuotes : List Char → List Char
  | [] => []
  | c :: t => if c = '"' then '"' :: '"' :: escapeQuotes t else c :: escapeQuotes t

/-- Minimal CSV quoting, as the `csv` module underlying `to_csv` does: a field
containing a comma, quote or newline is quoted, with quotes doubled. -/
def renderField (s : String) : String :=
  if s.data.any (fun c => c = ',' ∨ c = '"' ∨ c = '\n') then
    "\"" ++ String.mk (escapeQuotes s.data) ++ "\""
  else s

/-- The cell grid `to_csv` writes for an aggregate report dataframe whose
columns are the grouping key and the summed cost: one header line and one line
per group.  With `index = true` the RangeIndex left by `reset_index` would be
written as a leading unnamed column; every call site passes `false`. -/
def reportCells (keyName : String) (rows : List (String × ℚ)) (index : Bool) :
    List (List String) :=
  if index then
    ("" :: keyName :: ["CostInBillingCurrency"]) ::
      rows.enum.map fun p => toString p.1 :: renderField p.2.1 :: [renderCost p.2.2]
  else
    (keyName :: ["CostInBillingCurrency"]) ::
      rows.map fun p => renderField p.1 :: [renderCost p.2]

/-- Serialise a cell grid: each record is one comma-joined, newline-terminated
line. -/
def csvOfCells (cells : List (List String)) : String :=
  String.join (cells.map fun line => String.intercalate "," line ++ "\n")

/-- `os.path.join` for the POSIX paths the program builds. -/
def joinPath (a b : String) : String := a ++ "/" ++ b

/-- `cost_by_sub(df, dest_dir, file_name)`: the (path, content) pair of the one
file the function writes. -/
def cost_by_sub (df : List Row) (dest_dir file_name : String) : String × String :=
  (joinPath dest_dir file_name,
   csvOfCells (reportCells "SubscriptionName" (subGroups df) false))

/-- `cost_by_meter_cat(df, dest_dir, file_name)`. -/
def cost_by_meter_cat (df : List Row) (dest_dir file_name : String) : String × String :=
  (joinPath dest_dir file_name,
   csvOfCells (reportCells "MeterCategory" (meterGroups df) false))

/-- `cost_by_account(df, dest_dir, file_name)`. -/
def cost_by_account (df : List Row) (dest_dir file_name : String) : String × String :=
  (joinPath dest_dir file_name,
   csvOfCells (reportCells "AccountName" (accountGroups df) false))

/-- `cost_by_month(df, dest_dir, file_name)`; the period keys are rendered as
`"YYYY-MM"` strings. -/
def cost_by_month (df : List Row) (dest_dir file_name : String) : String × String :=
  (joinPath dest_dir file_name,
   csvOfCells (reportCells "Month"
     ((monthGroups df).map fun p => (renderPeriodM p.1, p.2)) false))

/-- An observable side effect of a run. -/
inductive Effect where
  | mkdir (path : String)
  | download (url : String) (dest : String)
  | writeFile (path : String) (content : String)
deriving DecidableEq, Repr

/-- What a successful run leaves behind. -/
structure RunOutput where
  report_dir : String
  download_dir : String
  billing_file : String
  reports : List (String × String)
deriving DecidableEq, Repr

/-- `main(source, out_dir)` (named `mainRun` since Lean reserves `main`): directory creation, download, load + derive, then
the four reports in a fixed order.  The downloaded-and-parsed CSV is the `lt`
parameter (the loaded table before the derive step); `timestamp` is the
`datetime.now().strftime(...)` label.  The returned effect list is the trace up
to the first failure; the result is `none` when the run aborts (failed assert
or a `Date` cell `pd.to_datetime` cannot parse). -/
def mainRun (source out_dir timestamp : String) (lt : List Row) :
    List Effect × Option RunOutput :=
  if source.length = 0 then ([], none)
  else
    let report_dir := joinPath out_dir timestamp
    let download_dir := joinPath out_dir "raw"
    let billing_file := joinPath download_dir (timestamp ++ ".billing.csv")
    let pre := [Effect.mkdir out_dir, Effect.mkdir report_dir,
                Effect.mkdir download_dir, Effect.download source billing_file]
    match derive lt with
    | none => (pre, none)
    | some df =>
      let reps := [cost_by_sub df report_dir "cost_by_subscription.csv",
                   cost_by_meter_cat df report_dir "cost_by_meter_cat.csv",
                   cost_by_account df report_dir "cost_by_account.csv",
                   cost_by_month df report_dir "cost_by_month.csv"]
      (pre ++ reps.map fun p => Effect.writeFile p.1 p.2,
       some ⟨report_dir, download_dir, billing_file, reps⟩)

/-- The optional `--source`/`--out` command-line flags. -/
structure Args where
  source : Option String
  out : Option String

/-- The environment variables the entry block consults. -/
structure Env where
  STORAGE_URL : Option String
  OUT_FOLDER : Option String

/-- Python `a or b` on an optional string: an absent or empty (falsy) left
operand falls through to the right one. -/
def pyOr (a b : Option String) : Option String :=
  match a with
  | some s => if s.data.isEmpty then b else some s
  | none => b

/-- Python truthiness of an optional string. -/
def truthy (o : Option String) : Bool :=
  match o with
  | some s => !s.data.isEmpty
  | none => false

/-- The `__main__` block: resolve `STORAGE_URL` and `OUT_FOLDER`, raise a
`ValueError` with a descriptive message when either is missing, otherwise run
`main`.  Returns the effect trace together with the raised message, if any. -/
def entry (args : Args) (env : Env) (timestamp : String) (lt : List Row) :
    List Effect × Option String :=
  let storage_url := pyOr args.source env.STORAGE_URL
  let out_folder := pyOr args.out env.OUT_FOLDER
  if !truthy storage_url then
    ([], some "Source is required. Have you set the STORAGE_URL env variable?")
  else if !truthy out_folder then
    ([], some "Out is required. Have you set the OUT_FOLDER env variable?")
  else
    ((mainRun (storage_url.getD "") (out_folder.getD "") timestamp lt).1, none)

/-- A loaded table is well formed when every row carries a value in each of the
three string grouping columns (the `Date` invariant is the success of
`derive`). -/
def WellFormed (lt : List Row) : Prop :=
  ∀ r ∈ lt, r.SubscriptionName.isSome ∧ r.MeterCategory.isSome ∧ r.AccountName.isSome

instance : DecidablePred WellFormed := fun lt =>
  List.decidableBAll _ lt

/-- The sum of the cost column over a whole table. -/
def costSum (df : List Row) : ℚ := (df.map Row.CostInBillingCurrency).sum

/-- The grand total of an aggregate report: the sum of its cost column. -/
def totalOf {K : Type} (g : List (K × ℚ)) : ℚ := (g.map Prod.snd).sum

/-- The month period of a loaded (not yet derived) row's `Date` string. -/
def dateMonthOf (r : Row) : Option Int :=
  match r.Date with
  | Value.str s => (parseDate s).map monthIdx
  | _ => none

/-- The relation between a loaded row and its derived form: the `Date` string
cell parsed to `d`, the `Date` cell overwritten with that datetime, and the two
period columns filled in; every other column untouched. -/
def DerRel (r r2 : Row) : Prop :=
  ∃ s d, r.Date = Value.str s ∧ parseDate s = some d ∧
    r2 = { r with
           Date := Value.dt d
           Month := some (Value.per (monthIdx d))
           Year := some (Value.perY (d.year : Int)) }

/-- The spec's worked example: three rows, subscriptions A/A/B, costs 10/5/3,
dates in January and February 2024 (columns the example leaves unspecified are
empty). -/
def c2Input : List Row :=
  [{ SubscriptionName := some "A", MeterCategory := none, AccountName := none,
     Date := Value.str "2024-01-01", Month := none, Year := none,
     CostInBillingCurrency := 10 },
   { SubscriptionName := some "A", MeterCategory := none, AccountName := none,
     Date := Value.str "2024-01-15", Month := none, Year := none,
     CostInBillingCurrency := 5 },
   { SubscriptionName := some "B", MeterCategory := none, AccountName := none,
     Date := Value.str "2024-02-01", Month := none, Year := none,
     CostInBillingCurrency := 3 }]

/-- The worked example after the derive step (2024-01 is month period 24288,
2024-02 is 24289). -/
def c2Df : List Row :=
  [{ SubscriptionName := some "A", MeterCategory := none, AccountName := none,
     Date := Value.dt ⟨2024, 1, 1⟩, Month := some (Value.per 24288),
     Year := some (Value.perY 2024), CostInBillingCurrency := 10 },
   { SubscriptionName := some "A", MeterCategory := none, AccountName := none,
     Date := Value.dt ⟨2024, 1, 15⟩, Month := some (Value.per 24288),
     Year := some (Value.perY 2024), CostInBillingCurrency := 5 },
   { SubscriptionName := some "B", MeterCategory := none, AccountName := none,
     Date := Value.dt ⟨2024, 2, 1⟩, Month := some (Value.per 24289),
     Year := some (Value.perY 2024), CostInBillingCurrency := 3 }]

/-- A two-row table with every grouping column populated, spanning two
calendar months. -/
def wfInput : List Row :=
  [{ SubscriptionName := some "A", MeterCategory := some "Compute",
     AccountName := some "Acct1", Date := Value.str "2024-01-01",
     Month := none, Year := none, CostInBillingCurrency := 10 },
   { SubscriptionName := some "B", MeterCategory := some "Storage",
     AccountName := some "Acct2", Date := Value.str "2024-02-05",
     Month := none, Year := none, CostInBillingCurrency := 5 }]

/-- `wfInput` after the derive step. -/
def wfDf : List Row :=
  [{ SubscriptionName := some "A", MeterCategory := some "Compute",
     AccountName := some "Acct1", Date := Value.dt ⟨2024, 1, 1⟩,
     Month := some (Value.per 24288), Year := some (Value.perY 2024),
     CostInBillingCurrency := 10 },
   { SubscriptionName := some "B", MeterCategory := some "Storage",
     AccountName := some "Acct2", Date := Value.dt ⟨2024, 2, 5⟩,
     Month := some (Value.per 24289), Year := some (Value.perY 2024),
     CostInBillingCurrency := 5 }]
theorem deriveRow_spec {r r2 : Row} (h : deriveRow r = some r2) : DerRel r r2 := by
  unfold deriveRow at h
  cases hD : r.Date with
  | str s =>
    rw [hD] at h
    dsimp only at h
    cases hp : parseDate s with
    | none => rw [hp] at h; simp at h
    | some d =>
      rw [hp] at h
      dsimp only at h
      cases h
      exact ⟨s, d, hD, hp, rfl⟩
  | dt d => rw [hD] at h; simp at h
  | per m => rw [hD] at h; simp at h
  | perY y => rw [hD] at h; simp at h
theorem derive_forall₂ : ∀ {lt df : List Row}, derive lt = some df → List.Forall₂ DerRel lt df := by
  intro lt
  induction lt with
  | nil =>
    intro df h
    cases h
    exact List.Forall₂.nil
  | cons r rs ih =>
    intro df h
    unfold derive at h
    cases h1 : deriveRow r with
    | none => rw [h1] at h; simp at h
    | some r2 =>
      rw [h1] at h
      cases h2 : derive rs with
      | none => rw [h2] at h; simp at h
      | some rs2 =>
        rw [h2] at h
        dsimp only at h
        cases h
        exact List.Forall₂.cons (deriveRow_spec h1) (ih h2)

theorem derRel_fields {r r2 : Row} (h : DerRel r r2) :
    r2.SubscriptionName = r.SubscriptionName ∧ r2.MeterCategory = r.MeterCategory ∧
    r2.AccountName = r.AccountName ∧
    r2.CostInBillingCurrency = r.CostInBillingCurrency := by
  obtain ⟨s, d, _, _, rfl⟩ := h
  exact ⟨rfl, rfl, rfl, rfl⟩

theorem derRel_month {r r2 : Row} (h : DerRel r r2) : monthKey r2 = dateMonthOf r := by
  obtain ⟨s, d, hs, hp, rfl⟩ := h
  simp [monthKey, dateMonthOf, hs, hp]

theorem derRel_date {r r2 : Row} (h : DerRel r r2) :
    ∃ s d, r.Date = Value.str s ∧ parseDate s = some d ∧ r2.Date = Value.dt d ∧
      r2.Month = some (Value.per (monthIdx d)) ∧ r2.Year = some (Value.perY (d.year : Int)) := by
  obtain ⟨s, d, hs, hp, rfl⟩ := h
  exact ⟨s, d, hs, hp, rfl, rfl, rfl⟩

theorem forall₂_mem_right {α : Type} {R : α → α → Prop} :
    ∀ {l1 l2 : List α}, List.Forall₂ R l1 l2 → ∀ b ∈ l2, ∃ a ∈ l1, R a b := by
  intro l1 l2 h
  induction h with
  | nil => intro b hb; cases hb
  | cons hr _ ih =>
    intro b hb
    rcases List.mem_cons.mp hb with rfl | hb2
    · exact ⟨_, List.mem_cons_self _ _, hr⟩
    · obtain ⟨a, ha, hra⟩ := ih b hb2
      exact ⟨a, List.mem_cons_of_mem _ ha, hra⟩

theorem filterMap_eq_of_forall₂ {α β : Type} {R : α → α → Prop} {f g : α → Option β}
    (hfg : ∀ a b, R a b → g b = f a) :
    ∀ {l1 l2 : List α}, List.Forall₂ R l1 l2 → l2.filterMap g = l1.filterMap f := by
  intro l1 l2 h
  induction h with
  | nil => rfl
  | cons hr _ ih => rw [List.filterMap_cons, List.filterMap_cons, hfg _ _ hr, ih]

theorem map_eq_of_forall₂ {α β : Type} {R : α → α → Prop} {f g : α → β}
    (hfg : ∀ a b, R a b → g b = f a) :
    ∀ {l1 l2 : List α}, List.Forall₂ R l1 l2 → l2.map g = l1.map f := by
  intro l1 l2 h
  induction h with
  | nil => rfl
  | cons hr _ ih => rw [List.map_cons, List.map_cons, hfg _ _ hr, ih]
theorem sum_map_ite {K : Type} [DecidableEq K] (k0 : K) (c : ℚ) (g : K → ℚ) :
    ∀ ks : List K, ks.Nodup → k0 ∈ ks →
      (ks.map fun k => if k0 = k then c + g k else g k).sum = c + (ks.map g).sum := by
  intro ks
  induction ks with
  | nil => intro _ hmem; cases hmem
  | cons a t ih =>
    intro hnd hmem
    obtain ⟨ha, ht⟩ := List.nodup_cons.mp hnd
    by_cases hk : k0 = a
    · subst hk
      have htail : (t.map fun k => if k0 = k then c + g k else g k) = t.map g := by
        refine List.map_congr_left ?_
        intro k hkt
        exact if_neg fun he => ha (by rw [he]; exact hkt)
      rw [List.map_cons, List.map_cons, if_pos rfl, List.sum_cons, List.sum_cons, htail]
      ring
    · have hmem2 : k0 ∈ t := (List.mem_cons.mp hmem).resolve_left hk
      rw [List.map_cons, List.map_cons, if_neg hk, List.sum_cons, List.sum_cons,
        ih ht hmem2]
      ring

theorem sum_filter_key {K : Type} [DecidableEq K] (key : Row → Option K) :
    ∀ (df : List Row) (ks : List K), ks.Nodup →
      (∀ r ∈ df, ∀ k, key r = some k → k ∈ ks) →
      (ks.map fun k => groupSum key df k).sum
        = ((df.filter fun r => (key r).isSome).map Row.CostInBillingCurrency).sum := by
  intro df
  induction df with
  | nil =>
    intro ks _ _
    simp [groupSum]
  | cons r t ih =>
    intro ks hnd hcov
    have hcovt : ∀ x ∈ t, ∀ k, key x = some k → k ∈ ks := by
      intro x hx k hk
      exact hcov x (List.mem_cons_of_mem _ hx) k hk
    cases hk : key r with
    | none =>
      have e1 : (ks.map fun k => groupSum key (r :: t) k) = ks.map fun k => groupSum key t k := by
        refine List.map_congr_left ?_
        intro k _
        unfold groupSum
        rw [List.filter_cons]
        simp [hk]
      rw [e1, ih ks hnd hcovt, List.filter_cons]
      simp [hk]
    | some k0 =>
      have hk0 : k0 ∈ ks := hcov r (List.mem_cons_self _ _) k0 hk
      have e1 : (ks.map fun k => groupSum key (r :: t) k)
          = ks.map fun k => if k0 = k then r.CostInBillingCurrency + groupSum key t k
              else groupSum key t k := by
        refine List.map_congr_left ?_
        intro k _
        unfold groupSum
        rw [List.filter_cons]
        by_cases h : k0 = k
        · subst h
          simp [hk]
        · simp [hk, h]
      rw [e1, sum_map_ite k0 _ _ ks hnd hk0, ih ks hnd hcovt, List.filter_cons]
      simp [hk]

theorem groupKeys_perm {K : Type} [DecidableEq K] (le : K → K → Bool)
    (key : Row → Option K) (df : List Row) :
    (groupKeys le key df).Perm (df.filterMap key).dedup :=
  List.perm_insertionSort _ _

theorem groups_total {K : Type} [DecidableEq K] (le : K → K → Bool)
    (key : Row → Option K) (df : List Row) :
    totalOf (groupbySum le key df)
      = ((df.filter fun r => (key r).isSome).map Row.CostInBillingCurrency).sum := by
  unfold totalOf groupbySum
  rw [List.map_map]
  have e1 : (Prod.snd ∘ fun k => (k, groupSum key df k)) = fun k => groupSum key df k := rfl
  rw [e1]
  rw [((groupKeys_perm le key df).map fun k => groupSum key df k).sum_eq]
  refine sum_filter_key key df _ (List.nodup_dedup _) ?_
  intro r hr k hk
  exact List.mem_dedup.mpr (List.mem_filterMap.mpr ⟨r, hr, hk⟩)
theorem charListLe_total (a : List Char) : ∀ b, charListLe a b = true ∨ charListLe b a = true := by
  induction a with
  | nil => intro b; left; rfl
  | cons x xs ih =>
    intro b
    cases b with
    | nil => right; rfl
    | cons y ys =>
      rcases lt_trichotomy x y with h | h | h
      · left
        simp [charListLe, h]
      · subst h
        rcases ih ys with h2 | h2
        · left
          simp [charListLe, lt_irrefl, h2]
        · right
          simp [charListLe, lt_irrefl, h2]
      · right
        simp [charListLe, h]

theorem charListLe_trans :
    ∀ a b c : List Char, charListLe a b = true → charListLe b c = true → charListLe a c = true := by
  intro a
  induction a with
  | nil => intro b c _ _; rfl
  | cons x xs ih =>
    intro b c hab hbc
    cases b with
    | nil => simp [charListLe] at hab
    | cons y ys =>
      cases c with
      | nil => simp [charListLe] at hbc
      | cons z zs =>
        simp only [charListLe] at hab hbc ⊢
        by_cases hxy : x < y
        · by_cases hyz : y < z
          · simp [lt_trans hxy hyz]
          · by_cases hzy : z < y
            · simp [charListLe, hyz, hzy] at hbc
            · have hyzeq : y = z := le_antisymm (not_lt.mp hzy) (not_lt.mp hyz)
              subst hyzeq
              simp [hxy]
        · by_cases hyx : y < x
          · simp [hxy, hyx] at hab
          · have hxyeq : x = y := le_antisymm (not_lt.mp hyx) (not_lt.mp hxy)
            subst hxyeq
            simp [hxy] at hab ⊢
            by_cases hyz : x < z
            · simp [hyz]
            · by_cases hzy : z < x
              · simp [hyz, hzy] at hbc
              · simp [hyz, hzy] at hab hbc ⊢
                exact ⟨not_lt.mp hzy, ih ys zs hab hbc⟩

theorem strLe_total (a b : String) : strLe a b = true ∨ strLe b a = true :=
  charListLe_total a.data b.data

theorem strLe_trans {a b c : String} (h1 : strLe a b = true) (h2 : strLe b c = true) :
    strLe a c = true :=
  charListLe_trans a.data b.data c.data h1 h2

theorem intLe_iff {a b : Int} : intLe a b = true ↔ a ≤ b := by
  simp [intLe]

theorem groupKeys_sorted {K : Type} [DecidableEq K] (le : K → K → Bool)
    (key : Row → Option K) (df : List Row)
    (htot : ∀ a b : K, le a b = true ∨ le b a = true)
    (htr : ∀ a b c : K, le a b = true → le b c = true → le a c = true) :
    List.Sorted (fun a b => le a b = true) (groupKeys le key df) := by
  haveI : IsTotal K fun a b => le a b = true := ⟨htot⟩
  haveI : IsTrans K fun a b => le a b = true := ⟨htr⟩
  exact List.sorted_insertionSort _ _

theorem groupbySum_fst {K : Type} [DecidableEq K] (le : K → K → Bool)
    (key : Row → Option K) (df : List Row) :
    (groupbySum le key df).map Prod.fst = groupKeys le key df := by
  unfold groupbySum
  rw [List.map_map]
  exact List.map_id _

theorem groupbySum_length {K : Type} [DecidableEq K] (le : K → K → Bool)
    (key : Row → Option K) (df : List Row) :
    (groupbySum le key df).length = (df.filterMap key).dedup.length := by
  unfold groupbySum
  rw [List.length_map]
  exact (groupKeys_perm le key df).length_eq
theorem string_append_cancel_left {s t u : String} (h : s ++ t = s ++ u) : t = u := by
  have h2 : (s ++ t).data = (s ++ u).data := congrArg String.data h
  rw [String.data_append, String.data_append] at h2
  exact String.ext (List.append_cancel_left h2)

theorem joinPath_right_inj {a b1 b2 : String} (h : joinPath a b1 = joinPath a b2) : b1 = b2 := by
  unfold joinPath at h
  rw [String.append_assoc, String.append_assoc] at h
  exact string_append_cancel_left (string_append_cancel_left h)

theorem reportCells_shape (kn : String) (rows : List (String × ℚ)) :
    (∀ line ∈ reportCells kn rows false, line.length = 2)
      ∧ (reportCells kn rows false).head? = some [kn, "CostInBillingCurrency"]
      ∧ (reportCells kn rows false).length = rows.length + 1 := by
  refine ⟨?_, rfl, by simp [reportCells]⟩
  intro line hl
  unfold reportCells at hl
  rw [if_neg (by simp)] at hl
  rcases List.mem_cons.mp hl with rfl | hl2
  · rfl
  · obtain ⟨p, _, rfl⟩ := List.mem_map.mp hl2
    rfl

theorem c2_derive : derive c2Input = some c2Df := by decide

theorem c2_subGroups : subGroups c2Df = [("A", 15), ("B", 3)] := by
  have hk : groupKeys strLe (fun r => r.SubscriptionName) c2Df = ["A", "B"] := by decide
  have hA : (c2Df.filter fun r => decide (r.SubscriptionName = some "A")).map
      Row.CostInBillingCurrency = [10, 5] := by decide
  have hB : (c2Df.filter fun r => decide (r.SubscriptionName = some "B")).map
      Row.CostInBillingCurrency = [3] := by decide
  unfold subGroups groupbySum
  rw [hk]
  simp only [List.map_cons, List.map_nil, groupSum, hA, hB]
  norm_num

theorem c2_monthGroups : monthGroups c2Df = [(24288, 15), (24289, 3)] := by
  have hk : groupKeys intLe monthKey c2Df = [24288, 24289] := by decide
  have hA : (c2Df.filter fun r => decide (monthKey r = some 24288)).map
      Row.CostInBillingCurrency = [10, 5] := by decide
  have hB : (c2Df.filter fun r => decide (monthKey r = some 24289)).map
      Row.CostInBillingCurrency = [3] := by decide
  unfold monthGroups groupbySum
  rw [hk]
  simp only [List.map_cons, List.map_nil, groupSum, hA, hB]
  norm_num

theorem c2_sub_content :
    (cost_by_sub c2Df "out" "cost_by_subscription.csv").2
      = "SubscriptionName,CostInBillingCurrency\nA,15.0\nB,3.0\n" := by
  unfold cost_by_sub
  rw [c2_subGroups]
  decide
/-- Claim C1: for every well-formed Billing Record Table, the cost columns of
the four generated reports all sum to the same grand total, equal to the sum
of `CostInBillingCurrency` over all input rows. -/
theorem cost_conserved_across_groupings (lt df : List Row)
    (hder : derive lt = some df) (hwf : WellFormed lt) :
    totalOf (subGroups df) = costSum lt
      ∧ totalOf (meterGroups df) = costSum lt
      ∧ totalOf (accountGroups df) = costSum lt
      ∧ totalOf (monthGroups df) = costSum lt
      ∧ costSum df = costSum lt := by
  have h2 := derive_forall₂ hder
  have hcost : df.map Row.CostInBillingCurrency = lt.map Row.CostInBillingCurrency :=
    map_eq_of_forall₂ (f := Row.CostInBillingCurrency) (g := Row.CostInBillingCurrency)
      (fun a b hab => (derRel_fields hab).2.2.2) h2
  have hsum : costSum df = costSum lt := by
    unfold costSum
    rw [hcost]
  have hpres : ∀ r2 ∈ df, r2.SubscriptionName.isSome ∧ r2.MeterCategory.isSome
      ∧ r2.AccountName.isSome ∧ (monthKey r2).isSome := by
    intro r2 hr2
    obtain ⟨r, hr, hrel⟩ := forall₂_mem_right h2 r2 hr2
    obtain ⟨hsub, hmet, hacc, _⟩ := derRel_fields hrel
    obtain ⟨hw1, hw2, hw3⟩ := hwf r hr
    obtain ⟨s, d, _, _, _, hm, _⟩ := derRel_date hrel
    exact ⟨by rw [hsub]; exact hw1, by rw [hmet]; exact hw2, by rw [hacc]; exact hw3,
      by simp [monthKey, hm]⟩
  have h1 : totalOf (subGroups df) = costSum df := by
    unfold subGroups
    rw [groups_total]
    rw [List.filter_eq_self.mpr fun r hr => (hpres r hr).1]
    rfl
  have h3 : totalOf (meterGroups df) = costSum df := by
    unfold meterGroups
    rw [groups_total]
    rw [List.filter_eq_self.mpr fun r hr => (hpres r hr).2.1]
    rfl
  have h4 : totalOf (accountGroups df) = costSum df := by
    unfold accountGroups
    rw [groups_total]
    rw [List.filter_eq_self.mpr fun r hr => (hpres r hr).2.2.1]
    rfl
  have h5 : totalOf (monthGroups df) = costSum df := by
    unfold monthGroups
    rw [groups_total]
    rw [List.filter_eq_self.mpr fun r hr => (hpres r hr).2.2.2]
    rfl
  exact ⟨h1.trans hsum, h3.trans hsum, h4.trans hsum, h5.trans hsum, hsum⟩

/-- Witness for C1 at a concrete two-row table. -/
theorem cost_conserved_witness :
    derive wfInput = some wfDf ∧ WellFormed wfInput
      ∧ (totalOf (subGroups wfDf) = costSum wfInput
        ∧ totalOf (meterGroups wfDf) = costSum wfInput
        ∧ totalOf (accountGroups wfDf) = costSum wfInput
        ∧ totalOf (monthGroups wfDf) = costSum wfInput
        ∧ costSum wfDf = costSum wfInput) :=
  ⟨by decide, by decide,
   cost_conserved_across_groupings wfInput wfDf (by decide) (by decide)⟩
/-- Claim C3: for a well-formed input table whose `SubscriptionName` column has
exactly `k` distinct values, `cost_by_subscription.csv` has exactly `k + 1`
lines: a header line plus one line per distinct value. -/
theorem subscription_report_line_count (lt df : List Row) (k : Nat)
    (hder : derive lt = some df) (_hwf : WellFormed lt)
    (hk : (lt.filterMap fun r => r.SubscriptionName).dedup.length = k) :
    (reportCells "SubscriptionName" (subGroups df) false).length = k + 1 := by
  have h2 := derive_forall₂ hder
  have hfm : (df.filterMap fun r => r.SubscriptionName)
      = lt.filterMap fun r => r.SubscriptionName :=
    filterMap_eq_of_forall₂ (f := fun r => r.SubscriptionName)
      (g := fun r => r.SubscriptionName) (fun a b hab => (derRel_fields hab).1) h2
  rw [(reportCells_shape "SubscriptionName" (subGroups df)).2.2]
  unfold subGroups
  rw [groupbySum_length, hfm, hk]

/-- Witness for C3: two distinct subscriptions give a three-line report. -/
theorem subscription_report_line_count_witness :
    derive wfInput = some wfDf ∧ WellFormed wfInput
      ∧ (wfInput.filterMap fun r => r.SubscriptionName).dedup.length = 2
      ∧ (reportCells "SubscriptionName" (subGroups wfDf) false).length = 2 + 1 :=
  ⟨by decide, by decide, by decide,
   subscription_report_line_count wfInput wfDf 2 (by decide) (by decide) (by decide)⟩

/-- Claim C5: every report generator, given the table, writes to
`directory/filename` a CSV whose records have exactly two fields — the
grouping key and the summed cost — with a header record and no row-index
column (the typed table always carries the key columns and the cost column). -/
theorem report_two_columns (df : List Row) (d f : String) :
    ((cost_by_sub df d f).1 = d ++ "/" ++ f
      ∧ (∀ line ∈ reportCells "SubscriptionName" (subGroups df) false, line.length = 2)
      ∧ (reportCells "SubscriptionName" (subGroups df) false).head?
          = some ["SubscriptionName", "CostInBillingCurrency"]
      ∧ (cost_by_sub df d f).2 = csvOfCells (reportCells "SubscriptionName" (subGroups df) false))
  ∧ ((cost_by_meter_cat df d f).1 = d ++ "/" ++ f
      ∧ (∀ line ∈ reportCells "MeterCategory" (meterGroups df) false, line.length = 2)
      ∧ (reportCells "MeterCategory" (meterGroups df) false).head?
          = some ["MeterCategory", "CostInBillingCurrency"]
      ∧ (cost_by_meter_cat df d f).2 = csvOfCells (reportCells "MeterCategory" (meterGroups df) false))
  ∧ ((cost_by_account df d f).1 = d ++ "/" ++ f
      ∧ (∀ line ∈ reportCells "AccountName" (accountGroups df) false, line.length = 2)
      ∧ (reportCells "AccountName" (accountGroups df) false).head?
          = some ["AccountName", "CostInBillingCurrency"]
      ∧ (cost_by_account df d f).2 = csvOfCells (reportCells "AccountName" (accountGroups df) false))
  ∧ ((cost_by_month df d f).1 = d ++ "/" ++ f
      ∧ (∀ line ∈ reportCells "Month"
            ((monthGroups df).map fun p => (renderPeriodM p.1, p.2)) false, line.length = 2)
      ∧ (reportCells "Month"
            ((monthGroups df).map fun p => (renderPeriodM p.1, p.2)) false).head?
          = some ["Month", "CostInBillingCurrency"]
      ∧ (cost_by_month df d f).2 = csvOfCells (reportCells "Month"
            ((monthGroups df).map fun p => (renderPeriodM p.1, p.2)) false)) :=
  ⟨⟨rfl, (reportCells_shape _ _).1, (reportCells_shape _ _).2.1, rfl⟩,
   ⟨rfl, (reportCells_shape _ _).1, (reportCells_shape _ _).2.1, rfl⟩,
   ⟨rfl, (reportCells_shape _ _).1, (reportCells_shape _ _).2.1, rfl⟩,
   ⟨rfl, (reportCells_shape _ _).1, (reportCells_shape _ _).2.1, rfl⟩⟩

/-- Claim C6: an input table whose `Date` values span exactly two distinct
calendar months yields a `cost_by_month.csv` with exactly two data rows. -/
theorem month_report_two_rows (lt df : List Row)
    (hder : derive lt = some df)
    (hm : (lt.filterMap dateMonthOf).dedup.length = 2) :
    (monthGroups df).length = 2
      ∧ (reportCells "Month"
          ((monthGroups df).map fun p => (renderPeriodM p.1, p.2)) false).length = 3 := by
  have h2 := derive_forall₂ hder
  have hfm : df.filterMap monthKey = lt.filterMap dateMonthOf :=
    filterMap_eq_of_forall₂ (f := dateMonthOf) (g := monthKey)
      (fun a b hab => derRel_month hab) h2
  have hlen : (monthGroups df).length = 2 := by
    unfold monthGroups
    rw [groupbySum_length, hfm, hm]
  refine ⟨hlen, ?_⟩
  rw [(reportCells_shape _ _).2.2, List.length_map, hlen]

/-- Witness for C6: dates in 2024-01 and 2024-02 give two month rows. -/
theorem month_report_two_rows_witness :
    derive wfInput = some wfDf
      ∧ (wfInput.filterMap dateMonthOf).dedup.length = 2
      ∧ ((monthGroups wfDf).length = 2
        ∧ (reportCells "Month"
            ((monthGroups wfDf).map fun p => (renderPeriodM p.1, p.2)) false).length = 3) :=
  ⟨by decide, by decide, month_report_two_rows wfInput wfDf (by decide) (by decide)⟩
/-- Claim C4: with the source URL missing (no flag, no `STORAGE_URL`) or the
output directory missing (no flag, no `OUT_FOLDER`), the entry block raises a
configuration error with a human-readable message and performs no effect: no
directory creation, no download, no file write. -/
theorem missing_config_fails_before_io (args : Args) (env : Env) (t : String) (lt : List Row)
    (h : (args.source = none ∧ env.STORAGE_URL = none)
      ∨ (args.out = none ∧ env.OUT_FOLDER = none)) :
    (entry args env t lt).1 = []
      ∧ ((entry args env t lt).2
            = some "Source is required. Have you set the STORAGE_URL env variable?"
        ∨ (entry args env t lt).2
            = some "Out is required. Have you set the OUT_FOLDER env variable?") := by
  rcases h with ⟨h1, h2⟩ | ⟨h1, h2⟩
  · have hst : pyOr args.source env.STORAGE_URL = none := by
      rw [h1, h2]
      rfl
    refine ⟨?_, Or.inl ?_⟩ <;> simp [entry, hst, truthy]
  · have hout : pyOr args.out env.OUT_FOLDER = none := by
      rw [h1, h2]
      rfl
    cases ht : truthy (pyOr args.source env.STORAGE_URL) with
    | false => refine ⟨?_, Or.inl ?_⟩ <;> simp [entry, ht]
    | true =>
      refine ⟨?_, Or.inr ?_⟩ <;>
        · simp only [entry]
          rw [ht]
          simp [hout, truthy]

/-- Witness for C4: no flags and no environment variables. -/
theorem missing_config_witness :
    ((Args.mk none none).source = none ∧ (Env.mk none none).STORAGE_URL = none)
      ∧ ((entry (Args.mk none none) (Env.mk none none) "t" []).1 = []
        ∧ ((entry (Args.mk none none) (Env.mk none none) "t" []).2
              = some "Source is required. Have you set the STORAGE_URL env variable?"
          ∨ (entry (Args.mk none none) (Env.mk none none) "t" []).2
              = some "Out is required. Have you set the OUT_FOLDER env variable?")) :=
  ⟨⟨rfl, rfl⟩,
   missing_config_fails_before_io (Args.mk none none) (Env.mk none none) "t" []
     (Or.inl ⟨rfl, rfl⟩)⟩

/-- Claim C7: the pipeline from loaded table to report contents is
deterministic: two runs over the same input differing only in the timestamp
produce identical report contents, while the timestamped report directories
differ. -/
theorem pipeline_deterministic (lt : List Row) (s out t1 t2 : String)
    (h1 : ((mainRun s out t1 lt).2).isSome) (hne : t1 ≠ t2) :
    ((mainRun s out t1 lt).2).map (fun o => o.reports.map Prod.snd)
        = ((mainRun s out t2 lt).2).map (fun o => o.reports.map Prod.snd)
      ∧ ((mainRun s out t1 lt).2).map RunOutput.report_dir
        ≠ ((mainRun s out t2 lt).2).map RunOutput.report_dir := by
  by_cases hs : s.length = 0
  · rw [mainRun, if_pos hs] at h1
    simp at h1
  · cases hd : derive lt with
    | none =>
      rw [mainRun, if_neg hs] at h1
      simp [hd] at h1
    | some df =>
      constructor
      · simp [mainRun, if_neg hs, hd, cost_by_sub, cost_by_meter_cat,
          cost_by_account, cost_by_month]
      · intro heq
        simp [mainRun, if_neg hs, hd] at heq
        exact hne (joinPath_right_inj heq)

/-- Witness for C7 at a concrete table and two distinct timestamps. -/
theorem pipeline_deterministic_witness :
    ((mainRun "url" "outdir" "20240101T000000" wfInput).2).isSome
      ∧ ("20240101T000000" : String) ≠ "20240102T000000"
      ∧ (((mainRun "url" "outdir" "20240101T000000" wfInput).2).map
            (fun o => o.reports.map Prod.snd)
          = ((mainRun "url" "outdir" "20240102T000000" wfInput).2).map
            (fun o => o.reports.map Prod.snd)
        ∧ ((mainRun "url" "outdir" "20240101T000000" wfInput).2).map RunOutput.report_dir
          ≠ ((mainRun "url" "outdir" "20240102T000000" wfInput).2).map RunOutput.report_dir) :=
  ⟨by decide, by decide,
   pipeline_deterministic wfInput "url" "outdir" "20240101T000000" "20240102T000000"
     (by decide) (by decide)⟩
/-- Claim C8: the derive step overwrites the `Date` column in place with the
parsed datetime values (besides appending `Month` and `Year`), so no row of
the derived table still holds the original string form of `Date`. -/
theorem date_column_overwritten (lt df : List Row) (hder : derive lt = some df) :
    List.Forall₂ (fun r r2 => ∃ s d, r.Date = Value.str s ∧ parseDate s = some d ∧
        r2.Date = Value.dt d ∧ r2.Month = some (Value.per (monthIdx d)) ∧
        r2.Year = some (Value.perY (d.year : Int))) lt df
      ∧ ∀ r2 ∈ df, ∀ s, r2.Date ≠ Value.str s := by
  have h2 := derive_forall₂ hder
  constructor
  · exact h2.imp fun a b hab => derRel_date hab
  · intro r2 hr2 s hcontra
    obtain ⟨r, hr, hrel⟩ := forall₂_mem_right h2 r2 hr2
    obtain ⟨s2, d, _, _, hdte, _, _⟩ := derRel_date hrel
    rw [hcontra] at hdte
    cases hdte

/-- Witness for C8 at the worked example's table. -/
theorem date_column_overwritten_witness :
    derive c2Input = some c2Df
      ∧ (List.Forall₂ (fun r r2 => ∃ s d, r.Date = Value.str s ∧ parseDate s = some d ∧
            r2.Date = Value.dt d ∧ r2.Month = some (Value.per (monthIdx d)) ∧
            r2.Year = some (Value.perY (d.year : Int))) c2Input c2Df
        ∧ ∀ r2 ∈ c2Df, ∀ s, r2.Date ≠ Value.str s) :=
  ⟨by decide, date_column_overwritten c2Input c2Df (by decide)⟩

/-- Claim C9: every report's data rows are sorted in ascending order of the
grouping-key value, and are the distinct key values (the grouping operation
sorts keys by default). -/
theorem report_rows_sorted (df : List Row) :
    (List.Sorted (fun a b => strLe a b = true) ((subGroups df).map Prod.fst)
      ∧ ((subGroups df).map Prod.fst).Perm (df.filterMap fun r => r.SubscriptionName).dedup)
  ∧ (List.Sorted (fun a b => strLe a b = true) ((meterGroups df).map Prod.fst)
      ∧ ((meterGroups df).map Prod.fst).Perm (df.filterMap fun r => r.MeterCategory).dedup)
  ∧ (List.Sorted (fun a b => strLe a b = true) ((accountGroups df).map Prod.fst)
      ∧ ((accountGroups df).map Prod.fst).Perm (df.filterMap fun r => r.AccountName).dedup)
  ∧ (List.Sorted (· ≤ ·) ((monthGroups df).map Prod.fst)
      ∧ ((monthGroups df).map Prod.fst).Perm (df.filterMap monthKey).dedup) := by
  have hstr : ∀ key : Row → Option String,
      List.Sorted (fun a b => strLe a b = true) (groupKeys strLe key df)
        ∧ (groupKeys strLe key df).Perm (df.filterMap key).dedup :=
    fun key =>
      ⟨groupKeys_sorted strLe key df strLe_total fun a b c hab hbc => strLe_trans hab hbc,
       groupKeys_perm strLe key df⟩
  have hint : List.Sorted (· ≤ ·) (groupKeys intLe monthKey df) := by
    have h := groupKeys_sorted intLe monthKey df
      (fun a b => by
        rcases le_total a b with h | h
        · exact Or.inl (intLe_iff.mpr h)
        · exact Or.inr (intLe_iff.mpr h))
      (fun a b c hab hbc => intLe_iff.mpr (le_trans (intLe_iff.mp hab) (intLe_iff.mp hbc)))
    exact h.imp fun hab => intLe_iff.mp hab
  unfold subGroups meterGroups accountGroups monthGroups
  rw [groupbySum_fst, groupbySum_fst, groupbySum_fst, groupbySum_fst]
  exact ⟨hstr _, hstr _, hstr _, hint, groupKeys_perm intLe monthKey df⟩

/-- Claim C10: rows with a missing grouping-key value are silently excluded
from that report — they form no group and their cost is not counted there —
while each report's total still counts every row whose key is present. -/
theorem missing_key_rows_excluded (df : List Row) :
    totalOf (subGroups df)
        = ((df.filter fun r => r.SubscriptionName.isSome).map Row.CostInBillingCurrency).sum
      ∧ totalOf (accountGroups df)
        = ((df.filter fun r => r.AccountName.isSome).map Row.CostInBillingCurrency).sum
      ∧ (∀ p ∈ subGroups df, ∃ r ∈ df, r.SubscriptionName = some p.1)
      ∧ (∀ p ∈ accountGroups df, ∃ r ∈ df, r.AccountName = some p.1) := by
  refine ⟨groups_total strLe _ df, groups_total strLe _ df, ?_, ?_⟩
  · intro p hp
    unfold subGroups groupbySum at hp
    obtain ⟨k, hk, rfl⟩ := List.mem_map.mp hp
    have hk2 := List.mem_dedup.mp ((groupKeys_perm strLe _ df).mem_iff.mp hk)
    obtain ⟨r, hr, hkr⟩ := List.mem_filterMap.mp hk2
    exact ⟨r, hr, hkr⟩
  · intro p hp
    unfold accountGroups groupbySum at hp
    obtain ⟨k, hk, rfl⟩ := List.mem_map.mp hp
    have hk2 := List.mem_dedup.mp ((groupKeys_perm strLe _ df).mem_iff.mp hk)
    obtain ⟨r, hr, hkr⟩ := List.mem_filterMap.mp hk2
    exact ⟨r, hr, hkr⟩

/-- Claim C2, counterexample: on the spec's example table the subscription
report's file content is not the claimed string (the cost cells render as
`15.0` and `3.0`, not `15` and `3`). -/
theorem c2_report_content_cex :
    derive c2Input = some c2Df
      ∧ (cost_by_sub c2Df "out" "cost_by_subscription.csv").2
          ≠ "SubscriptionName,CostInBillingCurrency\nA,15\nB,3\n" := by
  refine ⟨c2_derive, ?_⟩
  rw [c2_sub_content]
  decide

/-- Claim C2, amended: on the spec's example table the subscription report's
content is `"SubscriptionName,CostInBillingCurrency\nA,15.0\nB,3.0\n"` (pandas
renders the float sums with a trailing `.0`), and the month report has exactly
two data rows with cost values 15 and 3. -/
theorem c2_example_reports :
    derive c2Input = some c2Df
      ∧ (cost_by_sub c2Df "out" "cost_by_subscription.csv").2
          = "SubscriptionName,CostInBillingCurrency\nA,15.0\nB,3.0\n"
      ∧ (monthGroups c2Df).length = 2
      ∧ (monthGroups c2Df).map Prod.snd = [15, 3] := by
  refine ⟨c2_derive, c2_sub_content, ?_, ?_⟩
  · rw [c2_monthGroups]
    rfl
  · rw [c2_monthGroups]
    decide
